import Mathlib

/-!
Shallow embedding of the appscreen compositor (browser screenshot-composition
tool).  The JavaScript source renders a background, a transformed screenshot
and wrapped text onto a raster canvas.  Numbers are modelled as `ℚ` where the
code does plain arithmetic and as `ℝ` where it calls trigonometric functions;
canvas side effects are modelled as a list of draw operations; the
`Math.random` stream of the noise pass is an explicit `ℕ → ℚ` parameter.
-/

namespace AppScreen

/-- Target surface dimensions in pixels (`dims` in the source). -/
structure Dims where
  width : ℚ
  height : ℚ
deriving DecidableEq

/-- Decoded raster image: only its intrinsic size matters to the geometry. -/
structure Img where
  width : ℚ
  height : ℚ
deriving DecidableEq

/-- Shadow configuration (`settings.shadow`). -/
structure ShadowCfg where
  enabled : Bool
  color : String
  blur : ℚ
  opacity : ℚ
  x : ℚ
  y : ℚ
deriving DecidableEq

/-- Device-frame configuration (`settings.frame`). -/
structure FrameCfg where
  enabled : Bool
  color : String
  width : ℚ
  opacity : ℚ
deriving DecidableEq

/-- Screenshot settings object (`screenshot.screenshot` in the source). -/
structure ScreenshotSettings where
  scale : ℚ
  x : ℚ
  y : ℚ
  rotation : ℚ
  perspective : ℚ
  cornerRadius : ℚ
  shadow : Option ShadowCfg
  frame : Option FrameCfg
  use3D : Bool
deriving DecidableEq

/-- Placement geometry computed at the top of `drawScreenshotToContext`:
display width, display height, top-left x, top-left y. -/
def screenshotGeometry (dims : Dims) (img : Img) (settings : ScreenshotSettings) :
    ℚ × ℚ × ℚ × ℚ :=
  let scale := settings.scale / 100
  let imgWidth := dims.width * scale
  let imgHeight := (img.height / img.width) * imgWidth
  let wh :=
    if imgHeight > dims.height * scale then
      ((img.width / img.height) * (dims.height * scale), dims.height * scale)
    else
      (imgWidth, imgHeight)
  let x := (dims.width - wh.1) * (settings.x / 100)
  let y := (dims.height - wh.2) * (settings.y / 100)
  (wh.1, wh.2, x, y)

/-- Loop body of `wrapText`: the accumulator is `(lines, currentLine)`; the
test line is committed when its measured width overflows and the current line
is non-empty (JavaScript truthiness of `currentLine`). -/
def wrapStep (measure : String → ℚ) (maxWidth : ℚ) (acc : List String × String)
    (word : String) : List String × String :=
  let testLine := acc.2 ++ (if acc.2 ≠ "" then " " else "") ++ word
  if measure testLine > maxWidth ∧ acc.2 ≠ "" then
    (acc.1 ++ [acc.2], word)
  else
    (acc.1, testLine)

/-- Greedy word wrap (`wrapText` in the source).  The canvas text-measuring
primitive `ctx.measureText` is an environment parameter `measure`. -/
def wrapText (measure : String → ℚ) (text : String) (maxWidth : ℚ) : List String :=
  let words := text.splitOn " "
  let acc := words.foldl (wrapStep measure maxWidth) ([], "")
  if acc.2 ≠ "" then acc.1 ++ [acc.2] else acc.1

/-- Modelled from the spec: greedy word wrap stated as in the specification
text ("append words to the current line while measured width ≤ wrap width; on
overflow, commit the line and start a new one with the overflowing word; a
single word wider than the wrap width is kept on its own line unshortened").
Used only to compare against `wrapText`. -/
def specGreedyWrap (measure : String → ℚ) (words : List String) (maxWidth : ℚ)
    (cur : String) : List String :=
  match words with
  | [] => if cur ≠ "" then [cur] else []
  | w :: ws =>
    if cur = "" then
      specGreedyWrap measure ws maxWidth w
    else
      let t := cur ++ " " ++ w
      if measure t ≤ maxWidth then
        specGreedyWrap measure ws maxWidth t
      else
        cur :: specGreedyWrap measure ws maxWidth w

/-- One gradient color stop (`{color, position}`). -/
structure GradientStop where
  color : String
  position : ℚ
deriving DecidableEq

/-- Gradient configuration (`bg.gradient`). -/
structure GradientCfg where
  angle : ℚ
  stops : List GradientStop
deriving DecidableEq

/-- Background configuration object (`screenshot.background`). -/
structure Background where
  type : String
  gradient : GradientCfg
  solid : String
  image : Option Img
  imageFit : String
  imageBlur : ℚ
  overlayColor : String
  overlayOpacity : ℚ
  noise : Bool
  noiseIntensity : ℚ
deriving DecidableEq

/-- Canvas draw operations.  Each constructor records the arguments the source
passes to the corresponding canvas primitive; rendering a unit produces the
list of operations in source order, which stands in for the raster bytes
(identical operation lists give identical rasters). -/
inductive DrawOp where
  | setCanvasSize (w h styleW styleH : ℚ)
  | clearRect (x y w h : ℚ)
  | fillGradient (x1 y1 x2 y2 : ℝ) (stops : List (ℚ × String)) (x y w h : ℚ)
  | fillSolid (color : String) (x y w h : ℚ)
  | setFilterBlur (px : ℚ)
  | clearFilter
  | drawImageFull (img : Img) (sx sy sw sh dx dy dw dh : ℚ)
  | fillOverlay (color : String) (alpha : ℚ) (x y w h : ℚ)
  | noise (delta : ℕ → ℚ)
  | render3D (index : ℕ)
  | save
  | restore
  | translate (x y : ℚ)
  | rotate (radians : ℝ)
  | shear (k : ℚ)
  | setShadow (color : String) (alphaByte : ℤ) (blur offsetX offsetY : ℚ)
  | clearShadow
  | setFillColor (color : String)
  | setFillColorRgba (hex : String) (alpha : ℚ)
  | fillRoundRect (x y w h radius : ℚ)
  | clipRoundRect (x y w h radius : ℚ)
  | drawImageBox (img : Img) (x y w h : ℚ)
  | strokeRoundRect (x y w h radius lineWidth : ℚ) (color : String) (alpha : ℚ)
  | setTextAlign (a : String)
  | setTextBaseline (b : String)
  | setFont (style weight : String) (size : ℚ) (family : String)
  | fillText (s : String) (x y : ℚ)
  | fillRect (x y w h : ℚ)

/-- Background renderer (`drawBackgroundToContext`).  The gradient endpoints
use exact real trigonometry in place of IEEE `Math.cos`/`Math.sin`. -/
noncomputable def drawBackgroundToContext (dims : Dims) (bg : Background) : List DrawOp :=
  if bg.type = "gradient" then
    let angle : ℝ := (bg.gradient.angle : ℝ) * Real.pi / 180
    let x1 : ℝ := (dims.width : ℝ) / 2 - Real.cos angle * (dims.width : ℝ)
    let y1 : ℝ := (dims.height : ℝ) / 2 - Real.sin angle * (dims.height : ℝ)
    let x2 : ℝ := (dims.width : ℝ) / 2 + Real.cos angle * (dims.width : ℝ)
    let y2 : ℝ := (dims.height : ℝ) / 2 + Real.sin angle * (dims.height : ℝ)
    [DrawOp.fillGradient x1 y1 x2 y2
      (bg.gradient.stops.map (fun stop => (stop.position / 100, stop.color)))
      0 0 dims.width dims.height]
  else if bg.type = "solid" then
    [DrawOp.fillSolid bg.solid 0 0 dims.width dims.height]
  else if bg.type = "image" then
    match bg.image with
    | none => []
    | some img =>
      let srcDst :=
        if bg.imageFit = "cover" then
          let imgAspect := img.width / img.height
          let canvasAspect := dims.width / dims.height
          if imgAspect > canvasAspect then
            let sw := img.height * canvasAspect
            ((img.width - sw) / 2, 0, sw, img.height, 0, 0, dims.width, dims.height)
          else
            let sh := img.width / canvasAspect
            (0, (img.height - sh) / 2, img.width, sh, 0, 0, dims.width, dims.height)
        else if bg.imageFit = "contain" then
          let imgAspect := img.width / img.height
          let canvasAspect := dims.width / dims.height
          if imgAspect > canvasAspect then
            let dh := dims.width / imgAspect
            (0, 0, img.width, img.height, 0, (dims.height - dh) / 2, dims.width, dh)
          else
            let dw := dims.height * imgAspect
            (0, 0, img.width, img.height, (dims.width - dw) / 2, 0, dw, dims.height)
        else
          (0, 0, img.width, img.height, 0, 0, dims.width, dims.height)
      let letterbox :=
        if bg.imageFit = "contain" then
          [DrawOp.fillSolid "#000" 0 0 dims.width dims.height]
        else []
      let blurOps := if bg.imageBlur > 0 then [DrawOp.setFilterBlur bg.imageBlur] else []
      let overlayOps :=
        if bg.overlayOpacity > 0 then
          [DrawOp.fillOverlay bg.overlayColor (bg.overlayOpacity / 100) 0 0 dims.width dims.height]
        else []
      letterbox ++ blurOps ++
        [DrawOp.drawImageFull img srcDst.1 srcDst.2.1 srcDst.2.2.1 srcDst.2.2.2.1
          srcDst.2.2.2.2.1 srcDst.2.2.2.2.2.1 srcDst.2.2.2.2.2.2.1 srcDst.2.2.2.2.2.2.2,
        DrawOp.clearFilter] ++ overlayOps
  else []

/-- Per-pixel random perturbation of the noise pass: `(Math.random() - 0.5) *
255 * (intensity / 100)`, with the `Math.random` stream as `rng`. -/
def noiseDelta (rng : ℕ → ℚ) (intensity : ℚ) : ℕ → ℚ :=
  fun p => (rng p - 1/2) * 255 * (intensity / 100)

/-- One RGBA pixel of `ImageData`. -/
structure Pixel where
  r : ℚ
  g : ℚ
  b : ℚ
  a : ℚ
deriving DecidableEq

/-- Clamp as written in the noise loop: `Math.max(0, Math.min(255, v))`. -/
def clamp255 (v : ℚ) : ℚ := max 0 (min 255 v)

/-- Pixel loop of `drawNoiseToContext`, indexed from pixel `k`. -/
def noiseGo (rng : ℕ → ℚ) (intensity : ℚ) (k : ℕ) : List Pixel → List Pixel
  | [] => []
  | px :: rest =>
    { r := clamp255 (px.r + noiseDelta rng intensity k)
      g := clamp255 (px.g + noiseDelta rng intensity k)
      b := clamp255 (px.b + noiseDelta rng intensity k)
      a := px.a } :: noiseGo rng intensity (k + 1) rest

/-- Noise pass (`drawNoiseToContext`): reads back the pixel buffer, adds one
shared random delta to the R, G and B channels of each pixel, clamped into
`[0, 255]`, and writes the buffer back. -/
def drawNoiseToContext (rng : ℕ → ℚ) (pixels : List Pixel) (intensity : ℚ) : List Pixel :=
  noiseGo rng intensity 0 pixels

/-- JavaScript `Math.round`: half-up rounding, `⌊q + 1/2⌋`. -/
def jsRound (q : ℚ) : ℤ := ⌊q + 1/2⌋

/-- JavaScript `s || d` for strings, with the empty string as the falsy case. -/
def jsOr (s d : String) : String := if s = "" then d else s

/-- JavaScript `m[k] || ''` on a string-keyed object. -/
def lookupStr (m : List (String × String)) (k : String) : String :=
  (m.lookup k).getD ""

/-- Text configuration object (`screenshot.text`). -/
structure TextCfg where
  headlineEnabled : Option Bool
  subheadlineEnabled : Option Bool
  headlines : Option (List (String × String))
  subheadlines : Option (List (String × String))
  headlineLanguages : List String
  subheadlineLanguages : List String
  currentHeadlineLang : String
  currentSubheadlineLang : String
  headlineFont : String
  headlineSize : ℚ
  headlineColor : String
  headlineWeight : String
  headlineItalic : Bool
  headlineUnderline : Bool
  headlineStrikethrough : Bool
  lineHeight : ℚ
  position : String
  offsetY : ℚ
  subheadlineFont : String
  subheadlineSize : ℚ
  subheadlineColor : String
  subheadlineOpacity : ℚ
  subheadlineWeight : String
  subheadlineItalic : Bool
  subheadlineUnderline : Bool
  subheadlineStrikethrough : Bool
deriving DecidableEq

/-- Effective headline string: `headlineEnabled !== false` gated lookup of
`txt.headlines[txt.currentHeadlineLang || 'en'] || ''`. -/
def resolveHeadline (txt : TextCfg) : String :=
  if txt.headlineEnabled ≠ some false then
    match txt.headlines with
    | some hs => lookupStr hs (jsOr txt.currentHeadlineLang "en")
    | none => ""
  else ""

/-- Effective subheadline string (`subheadlineEnabled || false` gated). -/
def resolveSubheadline (txt : TextCfg) : String :=
  if txt.subheadlineEnabled = some true then
    match txt.subheadlines with
    | some hs => lookupStr hs (jsOr txt.currentSubheadlineLang "en")
    | none => ""
  else ""

/-- Text renderer (`drawTextToContext`): resolves the per-language strings,
wraps them, stacks lines (bottom anchor pre-shifts the first line up) and
emits glyph plus decoration operations. -/
def drawTextToContext (measure : String → ℚ) (dims : Dims) (txt : TextCfg) : List DrawOp :=
  let headline := resolveHeadline txt
  let subheadline := resolveSubheadline txt
  if headline = "" ∧ subheadline = "" then [] else
  let padding := dims.width * (8/100)
  let textY :=
    if txt.position = "top" then dims.height * (txt.offsetY / 100)
    else dims.height * (1 - txt.offsetY / 100)
  let baseOps := [DrawOp.setTextAlign "center",
    DrawOp.setTextBaseline (if txt.position = "top" then "top" else "bottom")]
  let hl :=
    if headline ≠ "" then
      let fontStyle := if txt.headlineItalic then "italic" else "normal"
      let lines := wrapText measure headline (dims.width - padding * 2)
      let lineHeight := txt.headlineSize * (txt.lineHeight / 100)
      let currentY :=
        if txt.position = "bottom" then textY - ((lines.length : ℚ) - 1) * lineHeight
        else textY
      let lineOps := (lines.enum.map (fun p =>
        let y := currentY + (p.1 : ℚ) * lineHeight
        let textWidth := measure p.2
        let fontSize := txt.headlineSize
        let lineThickness := max 2 (fontSize * (5/100))
        let x := dims.width / 2 - textWidth / 2
        [DrawOp.fillText p.2 (dims.width / 2) y]
        ++ (if txt.headlineUnderline then
              [DrawOp.fillRect x
                (if txt.position = "top" then y + fontSize * (9/10) else y + fontSize * (1/10))
                textWidth lineThickness]
            else [])
        ++ (if txt.headlineStrikethrough then
              [DrawOp.fillRect x
                (if txt.position = "top" then y + fontSize * (4/10) else y - fontSize * (4/10))
                textWidth lineThickness]
            else []))).flatten
      -- When `lines` is empty the source leaves `lastLineY` undefined and the
      -- downstream arithmetic is NaN; that corner is modelled as the value below.
      let lastLineY := currentY + ((lines.length : ℚ) - 1) * lineHeight
      let gap := lineHeight - txt.headlineSize
      let nextY :=
        if txt.position = "top" then lastLineY + txt.headlineSize + gap
        else lastLineY + gap
      ([DrawOp.setFont fontStyle txt.headlineWeight txt.headlineSize txt.headlineFont,
        DrawOp.setFillColor txt.headlineColor] ++ lineOps, nextY)
    else ([], textY)
  let subOps :=
    if subheadline ≠ "" then
      let subFontStyle := if txt.subheadlineItalic then "italic" else "normal"
      let subWeight := jsOr txt.subheadlineWeight "400"
      let lines := wrapText measure subheadline (dims.width - padding * 2)
      let subLineHeight := txt.subheadlineSize * (14/10)
      let subY := hl.2
      let baselineSwitch :=
        if txt.position = "bottom" then [DrawOp.setTextBaseline "top"] else []
      let lineOps := (lines.enum.map (fun p =>
        let y := subY + (p.1 : ℚ) * subLineHeight
        let textWidth := measure p.2
        let fontSize := txt.subheadlineSize
        let lineThickness := max 2 (fontSize * (5/100))
        let x := dims.width / 2 - textWidth / 2
        [DrawOp.fillText p.2 (dims.width / 2) y]
        ++ (if txt.subheadlineUnderline then
              [DrawOp.fillRect x (y + fontSize * (9/10)) textWidth lineThickness]
            else [])
        ++ (if txt.subheadlineStrikethrough then
              [DrawOp.fillRect x (y + fontSize * (4/10)) textWidth lineThickness]
            else []))).flatten
      let baselineRestore :=
        if txt.position = "bottom" then [DrawOp.setTextBaseline "bottom"] else []
      [DrawOp.setFont subFontStyle subWeight txt.subheadlineSize
          (jsOr txt.subheadlineFont txt.headlineFont),
        DrawOp.setFillColorRgba txt.subheadlineColor (txt.subheadlineOpacity / 100)]
        ++ baselineSwitch ++ lineOps ++ baselineRestore
    else []
  baseOps ++ hl.1 ++ subOps

/-- Device-frame stroke (`drawDeviceFrameToContext`). -/
def drawDeviceFrameToContext (x y w h : ℚ) (settings : ScreenshotSettings)
    (frame : FrameCfg) : List DrawOp :=
  let frameWidth := frame.width * (w / 400)
  let radius := settings.cornerRadius * (w / 400) + frameWidth
  [DrawOp.strokeRoundRect (x - frameWidth / 2) (y - frameWidth / 2)
    (w + frameWidth) (h + frameWidth) radius frameWidth frame.color (frame.opacity / 100)]

/-- 2D screenshot renderer (`drawScreenshotToContext`): placement geometry,
center transform (rotation and perspective shear), shadow, rounded-rect clip,
image draw and optional device frame. -/
noncomputable def drawScreenshotToContext (dims : Dims) (imgOpt : Option Img)
    (settings : ScreenshotSettings) : List DrawOp :=
  match imgOpt with
  | none => []
  | some img =>
    let g := screenshotGeometry dims img settings
    let imgWidth := g.1
    let imgHeight := g.2.1
    let x := g.2.2.1
    let y := g.2.2.2
    let centerX := x + imgWidth / 2
    let centerY := y + imgHeight / 2
    let transformOps :=
      [DrawOp.translate centerX centerY]
      ++ (if settings.rotation ≠ 0 then
            [DrawOp.rotate ((settings.rotation : ℝ) * Real.pi / 180)] else [])
      ++ (if settings.perspective ≠ 0 then
            [DrawOp.shear (settings.perspective * (1/100))] else [])
      ++ [DrawOp.translate (-centerX) (-centerY)]
    let radius := settings.cornerRadius * (imgWidth / 400)
    let shadowOps :=
      match settings.shadow with
      | some shadow =>
        if shadow.enabled then
          [DrawOp.setShadow shadow.color (jsRound (shadow.opacity / 100 * 255))
             shadow.blur shadow.x shadow.y,
           DrawOp.setFillColor "#000",
           DrawOp.fillRoundRect x y imgWidth imgHeight radius,
           DrawOp.clearShadow]
        else []
      | none => []
    let frameOps :=
      match settings.frame with
      | some frame =>
        if frame.enabled then
          [DrawOp.save] ++ transformOps
            ++ drawDeviceFrameToContext x y imgWidth imgHeight settings frame
            ++ [DrawOp.restore]
        else []
      | none => []
    [DrawOp.save] ++ transformOps ++ shadowOps
      ++ [DrawOp.clipRoundRect x y imgWidth imgHeight radius,
          DrawOp.drawImageBox img x y imgWidth imgHeight,
          DrawOp.restore]
      ++ frameOps

/-- One localized image entry of `screenshot.localizedImages`. -/
structure LocalizedImage where
  image : Option Img
  name : String
deriving DecidableEq

/-- One composition unit ("screenshot entry"). -/
structure Screenshot where
  image : Option Img
  localizedImages : List (String × LocalizedImage)
  background : Background
  screenshot : ScreenshotSettings
  text : TextCfg
deriving DecidableEq

/-- Project default settings (`state.defaults`). -/
structure Defaults where
  background : Background
  screenshot : ScreenshotSettings
  text : TextCfg
deriving DecidableEq

/-- Global application state (`state`). -/
structure AppState where
  screenshots : List Screenshot
  selectedIndex : ℕ
  projectLanguages : List String
  currentLanguage : String
  defaults : Defaults
deriving DecidableEq

/-- Host environment facts the orchestrator feature-detects: whether the
external 3D renderer function exists and whether the phone model is loaded. -/
structure RenderEnv where
  threeRendererAvailable : Bool
  phoneModelLoaded : Bool
deriving DecidableEq

/-- Composition orchestrator (`renderScreenshotToCanvas`): guards on the unit
and its image, sizes and clears the canvas, then draws background, optional
noise, the 2D screenshot (or dispatches to the external 3D renderer) and the
text, in that order. -/
noncomputable def renderScreenshotToCanvas (measure : String → ℚ) (env : RenderEnv)
    (rng : ℕ → ℚ) (st : AppState) (index : ℕ) (dims : Dims) (previewScale : ℚ) :
    List DrawOp :=
  match st.screenshots.get? index with
  | none => []
  | some screenshot =>
    match screenshot.image with
    | none => []
    | some _ =>
      [DrawOp.setCanvasSize dims.width dims.height
        (dims.width * previewScale) (dims.height * previewScale),
       DrawOp.clearRect 0 0 dims.width dims.height]
      ++ drawBackgroundToContext dims screenshot.background
      ++ (if screenshot.background.noise then
            [DrawOp.noise (noiseDelta rng screenshot.background.noiseIntensity)]
          else [])
      ++ (if screenshot.screenshot.use3D && env.threeRendererAvailable
            && env.phoneModelLoaded then
            [DrawOp.render3D index]
          else
            drawScreenshotToContext dims screenshot.image screenshot.screenshot)
      ++ drawTextToContext measure dims screenshot.text

/-- Dynamic JavaScript value, for the settings objects that the nested-path
setters walk generically. -/
inductive JVal where
  | str (s : String)
  | num (q : ℚ)
  | jbool (b : Bool)
  | obj (fields : List (String × JVal))

/-- Property assignment on a JavaScript object: replace the key in place or
append it. -/
def setField : List (String × JVal) → String → JVal → List (String × JVal)
  | [], k, v => [(k, v)]
  | (k', v') :: rest, k, v =>
    if k' = k then (k, v) :: rest else (k', v') :: setField rest k v

/-- Nested-path assignment loop shared by `setBackground` and
`setScreenshotSetting`: walk `obj = obj[parts[i]]` through all parts but the
last, then assign the last.  `none` models a thrown `TypeError` (reading or
writing a property of `undefined`); assignment on a primitive is the
non-strict-mode silent no-op. -/
def setPath : JVal → List String → JVal → Option JVal
  | o, [], _ => some o
  | o, [last], v =>
    match o with
    | JVal.obj fs => some (JVal.obj (setField fs last v))
    | _ => some o
  | o, k :: rest, v =>
    match o with
    | JVal.obj fs =>
      match fs.lookup k with
      | some child => (setPath child rest v).map (fun c => JVal.obj (setField fs k c))
      | none => none
    | _ => none

/-- JavaScript `key.includes('.')`. -/
def containsChar (c : Char) (s : String) : Bool := s.data.contains c

/-- Split a character list at every occurrence of the separator, keeping empty
groups, as JavaScript `split` does. -/
def splitOnChar (c : Char) : List Char → List (List Char)
  | [] => [[]]
  | d :: rest =>
    match splitOnChar c rest with
    | [] => [[]]
    | g :: gs => if d = c then [] :: g :: gs else (d :: g) :: gs

/-- JavaScript `key.split(c)`. -/
def jsSplit (c : Char) (s : String) : List String :=
  (splitOnChar c s.data).map String.mk

/-- Unit view for the dynamic setters: the two settings objects they mutate. -/
structure DynUnit where
  background : JVal
  screenshot : JVal

/-- State view for the dynamic setters. -/
structure DynState where
  screenshots : List DynUnit
  selectedIndex : ℕ

/-- Active unit (`getCurrentScreenshot`): `null` when there are no screenshots,
otherwise the (possibly out-of-range, hence optional) selected entry. -/
def getCurrentScreenshot (st : DynState) : Option DynUnit :=
  if st.screenshots.length = 0 then none
  else st.screenshots.get? st.selectedIndex

/-- Setter `setScreenshotSetting(key, value)`: no-op without an active unit,
otherwise nested-path assignment into the unit's screenshot settings.
`none` models a thrown `TypeError`. -/
def setScreenshotSetting (key : String) (value : JVal) (st : DynState) : Option DynState :=
  match getCurrentScreenshot st with
  | none => some st
  | some u =>
    let assigned :=
      if containsChar '.' key then setPath u.screenshot (jsSplit '.' key) value
      else setPath u.screenshot [key] value
    assigned.map (fun o =>
      { st with screenshots := st.screenshots.set st.selectedIndex { u with screenshot := o } })

/-- Setter `setBackground(key, value)`: same shape as `setScreenshotSetting`
but targeting the unit's background object. -/
def setBackground (key : String) (value : JVal) (st : DynState) : Option DynState :=
  match getCurrentScreenshot st with
  | none => some st
  | some u =>
    let assigned :=
      if containsChar '.' key then setPath u.background (jsSplit '.' key) value
      else setPath u.background [key] value
    assigned.map (fun o =>
      { st with screenshots := st.screenshots.set st.selectedIndex { u with background := o } })

/-- Language-to-flag table (`languageFlags` in the source); its keys are the
supported language codes, in object insertion order. -/
def languageFlags : List (String × String) :=
  [("en", "🇺🇸"), ("en-gb", "🇬🇧"), ("de", "🇩🇪"), ("fr", "🇫🇷"), ("es", "🇪🇸"),
   ("it", "🇮🇹"), ("pt", "🇵🇹"), ("pt-br", "🇧🇷"), ("nl", "🇳🇱"), ("ru", "🇷🇺"),
   ("ja", "🇯🇵"), ("ko", "🇰🇷"), ("zh", "🇨🇳"), ("zh-tw", "🇹🇼"), ("ar", "🇸🇦"),
   ("hi", "🇮🇳"), ("tr", "🇹🇷"), ("pl", "🇵🇱"), ("sv", "🇸🇪"), ("da", "🇩🇰"),
   ("no", "🇳🇴"), ("fi", "🇫🇮"), ("th", "🇹🇭"), ("vi", "🇻🇳"), ("id", "🇮🇩")]

/-- Supported language codes (`Object.keys(languageFlags)`). -/
def supportedLangs : List String := languageFlags.map Prod.fst

/-- Stable insertion step for the length-descending sort: a later element goes
after every earlier element of at least its length, as in the ES2019 stable
`sort((a, b) => b.length - a.length)`. -/
def insertByLenDesc (x : String) : List String → List String
  | [] => [x]
  | y :: ys => if y.length ≥ x.length then y :: insertByLenDesc x ys else x :: y :: ys

/-- Stable sort of the language codes, longest first. -/
def sortByLenDesc (l : List String) : List String :=
  l.foldl (fun acc x => insertByLenDesc x acc) []

/-- Character class `[_-]` of the detection pattern. -/
def isDelim (c : Char) : Bool := c == '_' || c == '-'

/-- Character class `[a-z]` of the detection pattern. -/
def isLowerAZ (c : Char) : Bool := 'a' ≤ c && c ≤ 'z'

/-- Split a language code at its first dash, mirroring
`lang.replace('-', '[-_]?')` which rewrites only the first dash into an
optional separator. -/
def splitAtDash : List Char → List Char × Option (List Char)
  | [] => ([], none)
  | c :: rest =>
    if c = '-' then ([], some rest)
    else
      let p := splitAtDash rest
      (c :: p.1, p.2)

/-- Literal-prefix matcher returning the unmatched remainder. -/
def stripChars : List Char → List Char → Option (List Char)
  | [], s => some s
  | _ :: _, [] => none
  | c :: cs, d :: ds => if c = d then stripChars cs ds else none

/-- Match the escaped language code `pre[-_]?post` at the front of `s` and
return the remainder. -/
def matchCore (pre : List Char) (post : Option (List Char)) (s : List Char) :
    Option (List Char) :=
  match stripChars pre s with
  | none => none
  | some r =>
    match post with
    | none => some r
    | some p =>
      match r with
      | [] => none
      | c :: r2 => if isDelim c then stripChars p r2 else stripChars p r

/-- Match the pattern suffix `(?:[_-][a-z]{2})?\.` (optional region code, then
a literal dot), with the regex backtracking over the optional group. -/
def matchTail (r : List Char) : Bool :=
  match r with
  | c1 :: c2 :: c3 :: c4 :: _ =>
    (isDelim c1 && isLowerAZ c2 && isLowerAZ c3 && c4 == '.') || c1 == '.'
  | c1 :: _ => c1 == '.'
  | [] => false

/-- Match the whole pattern `[_-]lang(?:[_-][a-z]{2})?\.` at the front of `s`. -/
def matchAt (pre : List Char) (post : Option (List Char)) (s : List Char) : Bool :=
  match s with
  | [] => false
  | c :: rest =>
    isDelim c &&
      (match matchCore pre post rest with
       | some r => matchTail r
       | none => false)

/-- Unanchored regex search: try the pattern at every position. -/
def scanMatch (pre : List Char) (post : Option (List Char)) : List Char → Bool
  | [] => false
  | c :: rest => matchAt pre post (c :: rest) || scanMatch pre post rest

/-- JavaScript `toLowerCase`, modelled per character (the language patterns
and filenames of interest are ASCII). -/
def jsToLower (s : String) : String := String.mk (s.data.map Char.toLower)

/-- Whether the detection pattern of `lang` matches the (lowercased)
filename. -/
def langMatches (lang : String) (lower : String) : Bool :=
  let p := splitAtDash lang.data
  scanMatch p.1 p.2 lower.data

/-- Language detection from a filename (`detectLanguageFromFilename`): first
code, longest codes first, whose `_`/`-`-delimited pattern before a dot
matches; defaults to `"en"`. -/
def detectLanguageFromFilename (filename : String) : String :=
  let lower := jsToLower filename
  ((sortByLenDesc supportedLangs).find? (fun lang => langMatches lang lower)).getD "en"

/-- Global language switch (`switchGlobalLanguage`): sets the state language
and points every unit's current headline and subheadline language at it. -/
def switchGlobalLanguage (lang : String) (st : AppState) : AppState :=
  { st with
    currentLanguage := lang
    screenshots := st.screenshots.map (fun s =>
      { s with text :=
        { s.text with currentHeadlineLang := lang, currentSubheadlineLang := lang } }) }

/-- Purge steps of `removeProjectLanguage` applied to one text configuration:
drop the language from the headline and subheadline language lists and delete
its entries from the corresponding string maps (each guarded by membership in
the list, as the `indexOf` guard in the source). -/
def purgeLangFromText (lang : String) (t : TextCfg) : TextCfg :=
  let t1 :=
    if lang ∈ t.headlineLanguages then
      { t with
        headlineLanguages := t.headlineLanguages.erase lang
        headlines := t.headlines.map (fun hs => hs.filter (fun p => p.1 ≠ lang)) }
    else t
  if lang ∈ t1.subheadlineLanguages then
    { t1 with
      subheadlineLanguages := t1.subheadlineLanguages.erase lang
      subheadlines := t1.subheadlines.map (fun hs => hs.filter (fun p => p.1 ≠ lang)) }
  else t1

/-- Per-unit body of the `removeProjectLanguage` loop: purge the maps, then
re-point the unit's current languages to the first remaining project language
when they showed the removed one. -/
def removeLangFromUnitText (first lang : String) (t : TextCfg) : TextCfg :=
  let t1 := purgeLangFromText lang t
  let t2 :=
    if t1.currentHeadlineLang = lang then { t1 with currentHeadlineLang := first } else t1
  if t2.currentSubheadlineLang = lang then { t2 with currentSubheadlineLang := first } else t2

/-- Project-language removal (`removeProjectLanguage`): rejected while at most
one language is enabled; otherwise removes the language from the project list,
switches the global language if it was the one shown, purges it from every
unit's text maps and from the defaults.  `headD ""` stands for the JavaScript
`projectLanguages[0]`, which cannot be an empty read under the length guard. -/
def removeProjectLanguage (lang : String) (st : AppState) : AppState :=
  if st.projectLanguages.length ≤ 1 then st
  else if lang ∈ st.projectLanguages then
    let langs := st.projectLanguages.erase lang
    let st1 := { st with projectLanguages := langs }
    let st2 :=
      if st1.currentLanguage = lang then switchGlobalLanguage (langs.headD "") st1 else st1
    let first := langs.headD ""
    { st2 with
      screenshots := st2.screenshots.map (fun s =>
        { s with text := removeLangFromUnitText first lang s.text })
      defaults := { st2.defaults with text := purgeLangFromText lang st2.defaults.text } }
  else st

/-- Concrete sample dimensions for witnesses. -/
def demoDims : Dims := ⟨100, 200⟩

/-- Concrete sample source image for witnesses (portrait 10×20). -/
def demoImg : Img := ⟨10, 20⟩

/-- Concrete sample screenshot settings for witnesses. -/
def demoSettings : ScreenshotSettings :=
  { scale := 50, x := 50, y := 50, rotation := 0, perspective := 0,
    cornerRadius := 0, shadow := none, frame := none, use3D := false }

/-- Text measure for witnesses: the string length in pixels-per-character 1. -/
def demoMeasure : String → ℚ := fun s => s.length

/-- Concrete solid background with noise disabled for witnesses. -/
def demoBackground : Background :=
  { type := "solid", gradient := ⟨0, []⟩, solid := "#ffffff", image := none,
    imageFit := "", imageBlur := 0, overlayColor := "#000000", overlayOpacity := 0,
    noise := false, noiseIntensity := 0 }

/-- Concrete text configuration whose headline and subheadline resolve empty. -/
def demoText : TextCfg :=
  { headlineEnabled := some false, subheadlineEnabled := none, headlines := none,
    subheadlines := none, headlineLanguages := ["en"], subheadlineLanguages := ["en"],
    currentHeadlineLang := "en", currentSubheadlineLang := "en",
    headlineFont := "Arial", headlineSize := 10, headlineColor := "#000",
    headlineWeight := "700", headlineItalic := false, headlineUnderline := false,
    headlineStrikethrough := false, lineHeight := 120, position := "top",
    offsetY := 10, subheadlineFont := "", subheadlineSize := 5,
    subheadlineColor := "#000", subheadlineOpacity := 100, subheadlineWeight := "",
    subheadlineItalic := false, subheadlineUnderline := false,
    subheadlineStrikethrough := false }

/-- Concrete composition unit with an image, for witnesses. -/
def demoUnit : Screenshot :=
  { image := some demoImg, localizedImages := [], background := demoBackground,
    screenshot := demoSettings, text := demoText }

/-- Concrete application state holding `demoUnit`. -/
def demoState : AppState :=
  { screenshots := [demoUnit], selectedIndex := 0, projectLanguages := ["en"],
    currentLanguage := "en", defaults := ⟨demoBackground, demoSettings, demoText⟩ }

/-- Environment without the external 3D renderer. -/
def demoEnv : RenderEnv := ⟨false, false⟩

/-- Constant zero random stream. -/
def demoRng0 : ℕ → ℚ := fun _ => 0

/-- Constant one random stream. -/
def demoRng1 : ℕ → ℚ := fun _ => 1

/-- Text configuration with a non-empty headline, for the C7 counterexample. -/
def demoHeadlineText : TextCfg :=
  { demoText with headlineEnabled := none, headlines := some [("en", "Hi")] }

/-- Unit whose image is missing but whose background and headline are set. -/
def noImageUnit : Screenshot :=
  { demoUnit with image := none, text := demoHeadlineText }

/-- State holding the image-less unit. -/
def noImageState : AppState := { demoState with screenshots := [noImageUnit] }

/-- Keys of an optional JavaScript string map. -/
def optKeys (m : Option (List (String × String))) : List String :=
  (m.getD []).map Prod.fst

/-- Well-formedness of a text configuration: the language lists are
duplicate-free and every key of the headline and subheadline maps is listed
(maintained by `addHeadlineLanguage`/`addSubheadlineLanguage`, which guard on
`includes` before pushing). -/
def TextWF (t : TextCfg) : Prop :=
  t.headlineLanguages.Nodup ∧ t.subheadlineLanguages.Nodup
  ∧ (∀ k ∈ optKeys t.headlines, k ∈ t.headlineLanguages)
  ∧ (∀ k ∈ optKeys t.subheadlines, k ∈ t.subheadlineLanguages)

instance (t : TextCfg) : Decidable (TextWF t) := by
  unfold TextWF
  infer_instance

/-- Unit carrying a German localized image and German text entries. -/
def langUnit : Screenshot :=
  { image := none,
    localizedImages := [("de", { image := none, name := "app_de.png" })],
    background := demoBackground, screenshot := demoSettings,
    text := { demoText with
      headlineLanguages := ["en", "de"],
      headlines := some [("en", "Hello"), ("de", "Hallo")],
      currentHeadlineLang := "de" } }

/-- State with languages `en` and `de` and one unit showing German. -/
def langState : AppState :=
  { screenshots := [langUnit], selectedIndex := 0,
    projectLanguages := ["en", "de"], currentLanguage := "en",
    defaults := ⟨demoBackground, demoSettings, demoText⟩ }

/-- Read back a nested path (all intermediates present and objects). -/
def getPath : JVal → List String → Option JVal
  | o, [] => some o
  | JVal.obj fs, k :: rest =>
    match fs.lookup k with
    | some c => getPath c rest
    | none => none
  | _, _ :: _ => none

/-- All intermediate objects of a (non-empty) path exist: the walk of the
setter reaches the final object without hitting `undefined`. -/
def walkable : JVal → List String → Prop
  | JVal.obj _, [_] => True
  | JVal.obj fs, k :: k2 :: rest =>
    ∃ child, fs.lookup k = some child ∧ walkable child (k2 :: rest)
  | _, _ => False

/-- Unit whose settings objects contain a `shadow` object with a `blur` key. -/
def dynShadowUnit : DynUnit :=
  ⟨JVal.obj [], JVal.obj [("shadow", JVal.obj [("blur", JVal.num 0)])]⟩

/-- State holding `dynShadowUnit`. -/
def dynShadowState : DynState := ⟨[dynShadowUnit], 0⟩

/-- Unit whose settings objects are empty — no `shadow` intermediate. -/
def dynEmptyUnit : DynUnit := ⟨JVal.obj [], JVal.obj []⟩

/-- State holding `dynEmptyUnit`. -/
def dynEmptyState : DynState := ⟨[dynEmptyUnit], 0⟩

/-- State with no screenshots at all (no active unit). -/
def dynNoUnitState : DynState := ⟨[], 0⟩

/-! Theorems. -/

/-- C1: the 2D screenshot renderer computes display width
`dims.width * scalePercent / 100` and a height preserving the source aspect
ratio; if that height exceeds `dims.height * scalePercent / 100` it re-derives
the width from that height instead, and places the box's top-left at
`((dims.width - displayWidth) * x / 100, (dims.height - displayHeight) * y / 100)`. -/
theorem c1_screenshot_geometry (dims : Dims) (img : Img) (st : ScreenshotSettings)
    (hiw : 0 < img.width) (hih : 0 < img.height) :
    (screenshotGeometry dims img st).2.1 * img.width
        = (screenshotGeometry dims img st).1 * img.height
    ∧ (¬ (img.height / img.width) * (dims.width * (st.scale / 100))
            > dims.height * (st.scale / 100) →
        (screenshotGeometry dims img st).1 = dims.width * (st.scale / 100)
        ∧ (screenshotGeometry dims img st).2.1
            = (img.height / img.width) * (dims.width * (st.scale / 100)))
    ∧ ((img.height / img.width) * (dims.width * (st.scale / 100))
            > dims.height * (st.scale / 100) →
        (screenshotGeometry dims img st).2.1 = dims.height * (st.scale / 100)
        ∧ (screenshotGeometry dims img st).1
            = (img.width / img.height) * (dims.height * (st.scale / 100)))
    ∧ (screenshotGeometry dims img st).2.2.1
        = (dims.width - (screenshotGeometry dims img st).1) * (st.x / 100)
    ∧ (screenshotGeometry dims img st).2.2.2
        = (dims.height - (screenshotGeometry dims img st).2.1) * (st.y / 100) := by
  have hiw' : img.width ≠ 0 := ne_of_gt hiw
  have hih' : img.height ≠ 0 := ne_of_gt hih
  unfold screenshotGeometry
  dsimp only
  split_ifs with h
  · refine ⟨?_, fun hc => absurd h hc, fun _ => ⟨rfl, rfl⟩, rfl, rfl⟩
    field_simp
    ring
  · refine ⟨?_, fun _ => ⟨rfl, rfl⟩, fun hc => absurd hc h, rfl, rfl⟩
    field_simp
    ring

/-- Witness for C1 at a concrete portrait image. -/
theorem c1_screenshot_geometry_witness :
    (0 : ℚ) < demoImg.width ∧ (0 : ℚ) < demoImg.height
    ∧ (screenshotGeometry demoDims demoImg demoSettings).2.1 * demoImg.width
        = (screenshotGeometry demoDims demoImg demoSettings).1 * demoImg.height :=
  ⟨by decide, by decide,
    (c1_screenshot_geometry demoDims demoImg demoSettings (by decide) (by decide)).1⟩

/-- Interpolated placement stays inside the axis range: helper for C8. -/
theorem offsetWithin {W w s : ℚ} (h1 : w ≤ W) (hs0 : 0 ≤ s)
    (hs1 : s ≤ 100) :
    0 ≤ (W - w) * (s / 100) ∧ (W - w) * (s / 100) + w ≤ W := by
  have hWw : 0 ≤ W - w := by linarith
  constructor
  · exact mul_nonneg hWw (by positivity)
  · have h2 : (W - w) * s ≤ (W - w) * 100 := mul_le_mul_of_nonneg_left hs1 hWw
    have h3 : (W - w) * s * (1 / 100) ≤ (W - w) * 100 * (1 / 100) :=
      mul_le_mul_of_nonneg_right h2 (by norm_num)
    have h4 : (W - w) * (s / 100) = (W - w) * s * (1 / 100) := by ring
    have h5 : (W - w) * 100 * (1 / 100) = W - w := by ring
    rw [h4]
    linarith [h3, h5.le]

/-- C8: for valid `scalePercent ∈ (0,100]` and `x, y ∈ [0,100]`, the
untransformed display box lies inside the canvas: nonnegative top-left, and
top-left plus display size bounded by the canvas dimensions. -/
theorem c8_bounding_box_within_canvas (dims : Dims) (img : Img)
    (st : ScreenshotSettings) (hW : 0 ≤ dims.width) (hH : 0 ≤ dims.height)
    (hiw : 0 < img.width) (hih : 0 < img.height)
    (hs0 : 0 < st.scale) (hs1 : st.scale ≤ 100)
    (hx0 : 0 ≤ st.x) (hx1 : st.x ≤ 100) (hy0 : 0 ≤ st.y) (hy1 : st.y ≤ 100) :
    0 ≤ (screenshotGeometry dims img st).2.2.1
    ∧ (screenshotGeometry dims img st).2.2.1 + (screenshotGeometry dims img st).1
        ≤ dims.width
    ∧ 0 ≤ (screenshotGeometry dims img st).2.2.2
    ∧ (screenshotGeometry dims img st).2.2.2 + (screenshotGeometry dims img st).2.1
        ≤ dims.height := by
  have hiw' : img.width ≠ 0 := ne_of_gt hiw
  have hih' : img.height ≠ 0 := ne_of_gt hih
  have ha0 : 0 ≤ st.scale / 100 := by positivity
  have ha1 : st.scale / 100 ≤ 1 := by
    rw [div_le_one (by norm_num : (0:ℚ) < 100)]
    exact hs1
  unfold screenshotGeometry
  dsimp only
  split_ifs with h
  · have hh0 : 0 ≤ dims.height * (st.scale / 100) := mul_nonneg hH ha0
    have hh1 : dims.height * (st.scale / 100) ≤ dims.height :=
      mul_le_of_le_one_right hH ha1
    have hw0 : 0 ≤ img.width / img.height * (dims.height * (st.scale / 100)) :=
      mul_nonneg (div_nonneg hiw.le hih.le) hh0
    have hw1 : img.width / img.height * (dims.height * (st.scale / 100)) ≤ dims.width := by
      have hv : 0 < img.width / img.height := div_pos hiw hih
      have := mul_lt_mul_of_pos_left h hv
      have hsimp : img.width / img.height * (img.height / img.width
          * (dims.width * (st.scale / 100))) = dims.width * (st.scale / 100) := by
        field_simp
        ring
      rw [hsimp] at this
      have hWs : dims.width * (st.scale / 100) ≤ dims.width :=
        mul_le_of_le_one_right hW ha1
      linarith
    obtain ⟨p1, p2⟩ := offsetWithin hw1 hx0 hx1
    obtain ⟨q1, q2⟩ := offsetWithin hh1 hy0 hy1
    exact ⟨p1, by linarith [p2], q1, by linarith [q2]⟩
  · have hw0 : 0 ≤ dims.width * (st.scale / 100) := mul_nonneg hW ha0
    have hw1 : dims.width * (st.scale / 100) ≤ dims.width :=
      mul_le_of_le_one_right hW ha1
    have hh0 : 0 ≤ img.height / img.width * (dims.width * (st.scale / 100)) :=
      mul_nonneg (div_nonneg hih.le hiw.le) hw0
    have hh1 : img.height / img.width * (dims.width * (st.scale / 100)) ≤ dims.height := by
      have hle := not_lt.mp h
      have hHs : dims.height * (st.scale / 100) ≤ dims.height :=
        mul_le_of_le_one_right hH ha1
      linarith
    obtain ⟨p1, p2⟩ := offsetWithin hw1 hx0 hx1
    obtain ⟨q1, q2⟩ := offsetWithin hh1 hy0 hy1
    exact ⟨p1, by linarith [p2], q1, by linarith [q2]⟩

/-- Witness for C8 at concrete valid settings. -/
theorem c8_bounding_box_within_canvas_witness :
    0 ≤ (screenshotGeometry demoDims demoImg demoSettings).2.2.1
    ∧ (screenshotGeometry demoDims demoImg demoSettings).2.2.1
        + (screenshotGeometry demoDims demoImg demoSettings).1 ≤ demoDims.width
    ∧ 0 ≤ (screenshotGeometry demoDims demoImg demoSettings).2.2.2
    ∧ (screenshotGeometry demoDims demoImg demoSettings).2.2.2
        + (screenshotGeometry demoDims demoImg demoSettings).2.1 ≤ demoDims.height :=
  c8_bounding_box_within_canvas demoDims demoImg demoSettings (by decide) (by decide)
    (by decide) (by decide) (by decide) (by decide) (by decide) (by decide)
    (by decide) (by decide)

/-- Joining two words with the separator never yields the empty string. -/
theorem append_sep_ne_empty (w1 w2 : String) : w1 ++ " " ++ w2 ≠ "" := by
  intro h
  have hlen := congrArg String.length h
  simp [String.length_append] at hlen
  exact absurd hlen.1.2 (by decide)

/-- Flushing the `wrapText` fold from any accumulator produces the committed
lines followed by the spec-level greedy wrap of the remaining words. -/
theorem wrapRun_eq (measure : String → ℚ) (maxW : ℚ) :
    ∀ (ws : List String) (lines : List String) (cur : String),
      (if (ws.foldl (wrapStep measure maxW) (lines, cur)).2 ≠ "" then
        (ws.foldl (wrapStep measure maxW) (lines, cur)).1
          ++ [(ws.foldl (wrapStep measure maxW) (lines, cur)).2]
      else (ws.foldl (wrapStep measure maxW) (lines, cur)).1)
      = lines ++ specGreedyWrap measure ws maxW cur := by
  intro ws
  induction ws with
  | nil =>
    intro lines cur
    by_cases h : cur = "" <;> simp [specGreedyWrap, h]
  | cons w ws ih =>
    intro lines cur
    by_cases hcur : cur = ""
    · subst hcur
      rw [List.foldl_cons]
      have hstep : wrapStep measure maxW (lines, "") w = (lines, w) := by
        simp [wrapStep, String.empty_append]
      rw [hstep, ih]
      simp [specGreedyWrap]
    · rw [List.foldl_cons]
      by_cases hover : measure (cur ++ " " ++ w) > maxW
      · have hstep : wrapStep measure maxW (lines, cur) w = (lines ++ [cur], w) := by
          simp [wrapStep, hcur, hover]
        rw [hstep, ih]
        simp [specGreedyWrap, hcur, not_le.mpr hover]
      · have hstep : wrapStep measure maxW (lines, cur) w = (lines, cur ++ " " ++ w) := by
          simp [wrapStep, hcur, hover]
        rw [hstep, ih]
        simp [specGreedyWrap, hcur, not_lt.mp hover]

/-- C3: line wrapping is greedy word-wrap — `wrapText` agrees with the
spec-level greedy wrap on the words of the input; a two-word line whose
measured width exactly equals the wrap width stays one line while one pixel
more forces a wrap; a single word wider than the wrap width is kept on its
own line unshortened. -/
theorem c3_wrap_greedy :
    (∀ (measure : String → ℚ) (text : String) (maxW : ℚ),
      wrapText measure text maxW = specGreedyWrap measure (text.splitOn " ") maxW "")
    ∧ (∀ (measure : String → ℚ) (w1 w2 : String) (maxW : ℚ), w1 ≠ "" →
        measure (w1 ++ " " ++ w2) = maxW →
        specGreedyWrap measure [w1, w2] maxW "" = [w1 ++ " " ++ w2])
    ∧ (∀ (measure : String → ℚ) (w1 w2 : String) (maxW : ℚ), w1 ≠ "" → w2 ≠ "" →
        measure (w1 ++ " " ++ w2) = maxW + 1 →
        specGreedyWrap measure [w1, w2] maxW "" = [w1, w2])
    ∧ (∀ (measure : String → ℚ) (w : String) (maxW : ℚ), w ≠ "" → maxW < measure w →
        specGreedyWrap measure [w] maxW "" = [w]) := by
  refine ⟨?_, ?_, ?_, ?_⟩
  · intro measure text maxW
    have h := wrapRun_eq measure maxW (text.splitOn " ") [] ""
    simpa [wrapText] using h
  · intro measure w1 w2 maxW h1 hm
    have hne := append_sep_ne_empty w1 w2
    simp [specGreedyWrap, h1, hm.le, hne]
  · intro measure w1 w2 maxW h1 h2 hm
    have hgt : ¬ measure (w1 ++ " " ++ w2) ≤ maxW := by
      rw [hm]; intro hc; linarith
    simp [specGreedyWrap, h1, h2, hgt]
  · intro measure w maxW hw hwide
    simp [specGreedyWrap, hw]

/-- Witness for C3 at concrete words and widths. -/
theorem c3_wrap_greedy_witness :
    specGreedyWrap demoMeasure ["ab", "cd"] 5 "" = ["ab" ++ " " ++ "cd"]
    ∧ specGreedyWrap demoMeasure ["ab", "cd"] 4 "" = ["ab", "cd"]
    ∧ specGreedyWrap demoMeasure ["abcdef"] 3 "" = ["abcdef"] :=
  ⟨c3_wrap_greedy.2.1 demoMeasure "ab" "cd" 5 (by decide)
     (by norm_num [demoMeasure, show ("ab" ++ " " ++ "cd").length = 5 from rfl]),
   c3_wrap_greedy.2.2.1 demoMeasure "ab" "cd" 4 (by decide) (by decide)
     (by norm_num [demoMeasure, show ("ab" ++ " " ++ "cd").length = 5 from rfl]),
   c3_wrap_greedy.2.2.2 demoMeasure "abcdef" 3 (by decide)
     (by norm_num [demoMeasure, show ("abcdef").length = 6 from rfl])⟩

/-- C9: rendering a gradient background with angle `θ + 360°` produces exactly
the same draw operations as with angle `θ`, because the axis endpoints are
computed from cosine and sine of the angle, which are `2π`-periodic. -/
theorem c9_gradient_angle_wraps (dims : Dims) (bg : Background) (θ : ℚ) :
    drawBackgroundToContext dims
        { bg with gradient := { angle := θ + 360, stops := bg.gradient.stops } }
      = drawBackgroundToContext dims
        { bg with gradient := { angle := θ, stops := bg.gradient.stops } } := by
  have hang : ((θ + 360 : ℚ) : ℝ) * Real.pi / 180 = (θ : ℝ) * Real.pi / 180 + 2 * Real.pi := by
    push_cast
    ring
  by_cases hg : bg.type = "gradient"
  · simp only [drawBackgroundToContext, hg]
    dsimp only
    rw [hang, Real.cos_add_two_pi, Real.sin_add_two_pi]
  · simp only [drawBackgroundToContext]
    dsimp only
    rw [if_neg hg, if_neg hg]

/-- C2: with the noise pass disabled, the orchestrator is independent of the
`Math.random` stream — two invocations on identical inputs produce identical
draw-operation lists (hence byte-identical raster output). -/
theorem c2_render_deterministic_without_noise (measure : String → ℚ)
    (env : RenderEnv) (rng1 rng2 : ℕ → ℚ) (st : AppState) (index : ℕ)
    (dims : Dims) (previewScale : ℚ) (u : Screenshot)
    (hu : st.screenshots.get? index = some u)
    (hn : u.background.noise = false) :
    renderScreenshotToCanvas measure env rng1 st index dims previewScale
      = renderScreenshotToCanvas measure env rng2 st index dims previewScale := by
  unfold renderScreenshotToCanvas
  rw [hu]
  dsimp only
  cases him : u.image with
  | none => rfl
  | some i => simp [hn]

/-- Witness for C2: two renders of the same noise-free unit under different
random streams agree. -/
theorem c2_render_deterministic_without_noise_witness :
    renderScreenshotToCanvas demoMeasure demoEnv demoRng0 demoState 0 demoDims 1
      = renderScreenshotToCanvas demoMeasure demoEnv demoRng1 demoState 0 demoDims 1 :=
  c2_render_deterministic_without_noise demoMeasure demoEnv demoRng0 demoRng1
    demoState 0 demoDims 1 demoUnit rfl rfl

/-- C7 (amended): when the selected unit's image is missing, the orchestrator
returns before drawing anything at all — background, noise, screenshot and
text are all skipped for that unit. -/
theorem c7_missing_image_skips_whole_render (measure : String → ℚ)
    (env : RenderEnv) (rng : ℕ → ℚ) (st : AppState) (index : ℕ) (dims : Dims)
    (previewScale : ℚ) (u : Screenshot)
    (hu : st.screenshots.get? index = some u) (hni : u.image = none) :
    renderScreenshotToCanvas measure env rng st index dims previewScale = [] := by
  unfold renderScreenshotToCanvas
  rw [hu]
  dsimp only
  rw [hni]

/-- Witness for C7 at the concrete image-less unit. -/
theorem c7_missing_image_skips_whole_render_witness :
    renderScreenshotToCanvas demoMeasure demoEnv demoRng0 noImageState 0 demoDims 1 = [] :=
  c7_missing_image_skips_whole_render demoMeasure demoEnv demoRng0 noImageState 0
    demoDims 1 noImageUnit rfl rfl

/-- Counterexample to C7 as stated: for a unit whose image is missing the
orchestrator emits no operations at all — in particular the background fill
and the text, which its own renderers would emit for this unit, are skipped
rather than only the image layer. -/
theorem c7_counterexample :
    renderScreenshotToCanvas demoMeasure demoEnv demoRng0 noImageState 0 demoDims 1 = []
    ∧ (drawBackgroundToContext demoDims noImageUnit.background).length = 1 := by
  exact ⟨rfl, rfl⟩

/-- Indexing the noise loop: pixel `i` of the output is pixel `i` of the input
with the delta for index `k + i` applied to its color channels only. -/
theorem noiseGo_get? (rng : ℕ → ℚ) (intensity : ℚ) :
    ∀ (l : List Pixel) (k i : ℕ),
      (noiseGo rng intensity k l).get? i = (l.get? i).map (fun px =>
        { r := clamp255 (px.r + noiseDelta rng intensity (k + i)),
          g := clamp255 (px.g + noiseDelta rng intensity (k + i)),
          b := clamp255 (px.b + noiseDelta rng intensity (k + i)),
          a := px.a }) := by
  intro l
  induction l with
  | nil =>
    intro k i
    simp [noiseGo]
  | cons px rest ih =>
    intro k i
    cases i with
    | zero => simp [noiseGo]
    | succ n =>
      have h := ih (k + 1) n
      simp only [noiseGo, List.get?_cons_succ, h]
      have : k + 1 + n = k + (n + 1) := by omega
      rw [this]

/-- C10: the noise pass adds one shared random delta per pixel to the R, G and
B channels, clamped into `[0, 255]`, and leaves every pixel's alpha channel
unchanged. -/
theorem c10_noise_preserves_alpha (rng : ℕ → ℚ) (pixels : List Pixel)
    (intensity : ℚ) (i : ℕ) (px : Pixel) (hpx : pixels.get? i = some px) :
    (drawNoiseToContext rng pixels intensity).get? i
      = some { r := clamp255 (px.r + noiseDelta rng intensity i),
               g := clamp255 (px.g + noiseDelta rng intensity i),
               b := clamp255 (px.b + noiseDelta rng intensity i),
               a := px.a }
    ∧ (∀ v : ℚ, 0 ≤ clamp255 v ∧ clamp255 v ≤ 255) := by
  constructor
  · have h := noiseGo_get? rng intensity pixels 0 i
    rw [drawNoiseToContext, h, hpx]
    simp
  · intro v
    exact ⟨le_max_left 0 (min 255 v), max_le (by norm_num) (min_le_left 255 v)⟩

/-- Witness for C10 at a concrete one-pixel buffer. -/
theorem c10_noise_preserves_alpha_witness :
    (drawNoiseToContext demoRng0 [⟨10, 20, 30, 40⟩] 50).get? 0
      = some { r := clamp255 (10 + noiseDelta demoRng0 50 0),
               g := clamp255 (20 + noiseDelta demoRng0 50 0),
               b := clamp255 (30 + noiseDelta demoRng0 50 0),
               a := 40 }
    ∧ (∀ v : ℚ, 0 ≤ clamp255 v ∧ clamp255 v ≤ 255) :=
  c10_noise_preserves_alpha demoRng0 [⟨10, 20, 30, 40⟩] 50 0 ⟨10, 20, 30, 40⟩ rfl

/-- In a list sorted by non-increasing length, `find?` returns an element at
least as long as any element satisfying the predicate. -/
theorem find?_length_ge (p : String → Bool) :
    ∀ (l : List String) (x : String),
      l.Pairwise (fun a b => b.length ≤ a.length) → l.find? p = some x →
      ∀ y ∈ l, p y = true → y.length ≤ x.length := by
  intro l
  induction l with
  | nil => intro x _ hfind; simp at hfind
  | cons h t ih =>
    intro x hpw hfind y hy hpy
    have hpw' := List.pairwise_cons.mp hpw
    by_cases hph : p h = true
    · rw [List.find?_cons_of_pos _ hph] at hfind
      injection hfind with hx
      subst hx
      rcases List.mem_cons.mp hy with hyh | hyt
      · subst hyh; exact le_refl _
      · exact hpw'.1 y hyt
    · rw [List.find?_cons_of_neg _ hph] at hfind
      rcases List.mem_cons.mp hy with hyh | hyt
      · subst hyh; exact absurd hpy hph
      · exact ih x hpw'.2 hfind y hyt hpy

/-- C6: `detectLanguageFromFilename` returns a supported code (defaulting to
`"en"` when nothing matches), prefers longer codes over shorter matching ones
(stable longest-code-first iteration), and on the two reference inputs yields
`"pt-br"` (not `"pt"`) and `"en"`. -/
theorem c6_detect_language :
    detectLanguageFromFilename "app_pt-br.png" = "pt-br"
    ∧ detectLanguageFromFilename "app.png" = "en"
    ∧ (∀ name : String, detectLanguageFromFilename name ∈ supportedLangs)
    ∧ (∀ name lang : String, lang ∈ supportedLangs →
        langMatches lang (jsToLower name) = true →
        lang.length ≤ (detectLanguageFromFilename name).length) := by
  have hsorted : (sortByLenDesc supportedLangs).Pairwise
      (fun a b => b.length ≤ a.length) := by decide
  have hsub1 : ∀ x ∈ sortByLenDesc supportedLangs, x ∈ supportedLangs := by decide
  have hsub2 : ∀ x ∈ supportedLangs, x ∈ sortByLenDesc supportedLangs := by decide
  refine ⟨by decide, by decide, ?_, ?_⟩
  · intro name
    unfold detectLanguageFromFilename
    cases hfind : (sortByLenDesc supportedLangs).find?
        (fun lang => langMatches lang (jsToLower name)) with
    | none => simp [hfind]; decide
    | some l =>
      simp only [hfind, Option.getD_some]
      exact hsub1 l (List.mem_of_find?_eq_some hfind)
  · intro name lang hmem hmatch
    unfold detectLanguageFromFilename
    cases hfind : (sortByLenDesc supportedLangs).find?
        (fun lang => langMatches lang (jsToLower name)) with
    | none =>
      have := List.find?_eq_none.mp hfind lang (hsub2 lang hmem)
      simp [hmatch] at this
    | some l =>
      simp only [hfind, Option.getD_some]
      exact find?_length_ge _ _ l hsorted hfind lang (hsub2 lang hmem) hmatch

/-- Witness for C6: the shorter code `pt` also matches `app_pt-br.png`, and
the detected code is at least as long. -/
theorem c6_detect_language_witness :
    "pt" ∈ supportedLangs
    ∧ langMatches "pt" (jsToLower "app_pt-br.png") = true
    ∧ "pt".length ≤ (detectLanguageFromFilename "app_pt-br.png").length :=
  ⟨by decide, by decide,
    c6_detect_language.2.2.2 "app_pt-br.png" "pt" (by decide) (by decide)⟩

/-- Deleting a key from a JavaScript map removes it from the key list. -/
theorem not_mem_keys_filter (lang : String) (m : Option (List (String × String))) :
    lang ∉ optKeys (m.map (fun hs => hs.filter (fun p => p.1 ≠ lang))) := by
  cases m with
  | none => simp [optKeys]
  | some hs =>
    simp only [optKeys, Option.map_some', Option.getD_some, List.mem_map]
    rintro ⟨p, hp, hfst⟩
    rcases List.mem_filter.mp hp with ⟨-, hne⟩
    simp only [decide_eq_true_eq] at hne
    exact hne hfst

/-- An element erased from a duplicate-free list is gone. -/
theorem erase_not_mem {l : List String} (h : l.Nodup) (a : String) : a ∉ l.erase a := by
  intro hmem
  rcases (List.Nodup.mem_erase_iff h).mp hmem with ⟨hne, -⟩
  exact hne rfl

/-- The purge steps do not touch the current language fields. -/
theorem purge_current (lang : String) (t : TextCfg) :
    (purgeLangFromText lang t).currentHeadlineLang = t.currentHeadlineLang
    ∧ (purgeLangFromText lang t).currentSubheadlineLang = t.currentSubheadlineLang := by
  by_cases h1 : lang ∈ t.headlineLanguages <;>
    by_cases h2 : lang ∈ t.subheadlineLanguages <;>
      simp [purgeLangFromText, h1, h2]

/-- The purge steps of `removeProjectLanguage` eliminate the language from a
well-formed text configuration's maps and language lists. -/
theorem purge_spec (lang : String) (t : TextCfg) (hwf : TextWF t) :
    lang ∉ optKeys (purgeLangFromText lang t).headlines
    ∧ lang ∉ optKeys (purgeLangFromText lang t).subheadlines
    ∧ lang ∉ (purgeLangFromText lang t).headlineLanguages
    ∧ lang ∉ (purgeLangFromText lang t).subheadlineLanguages := by
  obtain ⟨hn1, hn2, hk1, hk2⟩ := hwf
  unfold purgeLangFromText
  dsimp only
  by_cases h1 : lang ∈ t.headlineLanguages
  · rw [if_pos h1]
    dsimp only
    by_cases h2 : lang ∈ t.subheadlineLanguages
    · rw [if_pos h2]
      exact ⟨not_mem_keys_filter lang t.headlines,
        not_mem_keys_filter lang t.subheadlines,
        erase_not_mem hn1 lang, erase_not_mem hn2 lang⟩
    · rw [if_neg h2]
      exact ⟨not_mem_keys_filter lang t.headlines,
        fun hc => h2 (hk2 lang hc), erase_not_mem hn1 lang, h2⟩
  · rw [if_neg h1]
    by_cases h2 : lang ∈ t.subheadlineLanguages
    · rw [if_pos h2]
      exact ⟨fun hc => h1 (hk1 lang hc),
        not_mem_keys_filter lang t.subheadlines, h1, erase_not_mem hn2 lang⟩
    · rw [if_neg h2]
      exact ⟨fun hc => h1 (hk1 lang hc), fun hc => h2 (hk2 lang hc), h1, h2⟩

/-- The per-unit removal step re-points the current headline language exactly
when it showed the removed language. -/
theorem removeUnit_ch (first lang : String) (t : TextCfg) :
    (removeLangFromUnitText first lang t).currentHeadlineLang
      = if t.currentHeadlineLang = lang then first else t.currentHeadlineLang := by
  have hc := (purge_current lang t).1
  unfold removeLangFromUnitText
  dsimp only
  by_cases c1 : (purgeLangFromText lang t).currentHeadlineLang = lang
  · have ht : t.currentHeadlineLang = lang := hc.symm.trans c1
    rw [if_pos c1, if_pos ht]
    rw [apply_ite TextCfg.currentHeadlineLang]
    simp
  · have ht : ¬ t.currentHeadlineLang = lang := fun hh => c1 (hc.trans hh)
    rw [if_neg c1, if_neg ht]
    rw [apply_ite TextCfg.currentHeadlineLang]
    simp [hc]

/-- The per-unit removal step re-points the current subheadline language
exactly when it showed the removed language. -/
theorem removeUnit_csub (first lang : String) (t : TextCfg) :
    (removeLangFromUnitText first lang t).currentSubheadlineLang
      = if t.currentSubheadlineLang = lang then first
        else t.currentSubheadlineLang := by
  have hcs := (purge_current lang t).2
  unfold removeLangFromUnitText
  dsimp only
  by_cases c1 : (purgeLangFromText lang t).currentHeadlineLang = lang
  · rw [if_pos c1]
    dsimp only
    by_cases c2 : (purgeLangFromText lang t).currentSubheadlineLang = lang
    · have ht : t.currentSubheadlineLang = lang := hcs.symm.trans c2
      rw [if_pos c2, if_pos ht]
    · have ht : ¬ t.currentSubheadlineLang = lang := fun hh => c2 (hcs.trans hh)
      rw [if_neg c2, if_neg ht]
      exact hcs
  · rw [if_neg c1]
    by_cases c2 : (purgeLangFromText lang t).currentSubheadlineLang = lang
    · have ht : t.currentSubheadlineLang = lang := hcs.symm.trans c2
      rw [if_pos c2, if_pos ht]
    · have ht : ¬ t.currentSubheadlineLang = lang := fun hh => c2 (hcs.trans hh)
      rw [if_neg c2, if_neg ht]
      exact hcs

/-- The per-unit removal step only changes the text configuration's fields
listed in the purge and re-point steps; in particular the purged maps and
lists are those of `purgeLangFromText`. -/
theorem removeUnit_fields (first lang : String) (t : TextCfg) :
    (removeLangFromUnitText first lang t).headlines = (purgeLangFromText lang t).headlines
    ∧ (removeLangFromUnitText first lang t).subheadlines
        = (purgeLangFromText lang t).subheadlines
    ∧ (removeLangFromUnitText first lang t).headlineLanguages
        = (purgeLangFromText lang t).headlineLanguages
    ∧ (removeLangFromUnitText first lang t).subheadlineLanguages
        = (purgeLangFromText lang t).subheadlineLanguages := by
  unfold removeLangFromUnitText
  dsimp only
  by_cases c1 : (purgeLangFromText lang t).currentHeadlineLang = lang <;>
    by_cases c2 : (purgeLangFromText lang t).currentSubheadlineLang = lang <;>
      simp [c1, c2]

/-- The per-unit removal step purges the language and leaves both current
language fields pointing away from it. -/
theorem removeUnit_spec (first lang : String) (t : TextCfg) (hwf : TextWF t)
    (hf : first ≠ lang) :
    lang ∉ optKeys (removeLangFromUnitText first lang t).headlines
    ∧ lang ∉ optKeys (removeLangFromUnitText first lang t).subheadlines
    ∧ lang ∉ (removeLangFromUnitText first lang t).headlineLanguages
    ∧ lang ∉ (removeLangFromUnitText first lang t).subheadlineLanguages
    ∧ (removeLangFromUnitText first lang t).currentHeadlineLang ≠ lang
    ∧ (removeLangFromUnitText first lang t).currentSubheadlineLang ≠ lang := by
  obtain ⟨p1, p2, p3, p4⟩ := purge_spec lang t hwf
  obtain ⟨f1, f2, f3, f4⟩ := removeUnit_fields first lang t
  refine ⟨f1 ▸ p1, f2 ▸ p2, f3 ▸ p3, f4 ▸ p4, ?_, ?_⟩
  · rw [removeUnit_ch]
    split_ifs with c
    · exact hf
    · exact c
  · rw [removeUnit_csub]
    split_ifs with c
    · exact hf
    · exact c

/-- Switching the global language on a unit's text preserves well-formedness
(only the current language fields change). -/
theorem switch_preserves_wf (lang : String) (t : TextCfg) (hwf : TextWF t) :
    TextWF { t with currentHeadlineLang := lang, currentSubheadlineLang := lang } :=
  hwf

/-- C4 (amended): removal is a no-op with at most one enabled language;
otherwise it drops the language from the project list, re-points the UI and
any unit whose headline showed the removed language to the new first enabled
language, and purges the language from every unit's headline/subheadline maps
and language lists and from the defaults — but leaves every unit's localized
image map untouched. -/
theorem c4_remove_language :
    (∀ (st : AppState) (lang : String), st.projectLanguages.length ≤ 1 →
      removeProjectLanguage lang st = st)
    ∧ (∀ (st : AppState) (lang : String), 2 ≤ st.projectLanguages.length →
        lang ∈ st.projectLanguages → st.projectLanguages.Nodup →
        (∀ u ∈ st.screenshots, TextWF u.text) → TextWF st.defaults.text →
        lang ∉ (removeProjectLanguage lang st).projectLanguages
        ∧ (st.currentLanguage = lang →
            (removeProjectLanguage lang st).currentLanguage
              = (st.projectLanguages.erase lang).headD "")
        ∧ (∀ u' ∈ (removeProjectLanguage lang st).screenshots,
            lang ∉ optKeys u'.text.headlines
            ∧ lang ∉ optKeys u'.text.subheadlines
            ∧ lang ∉ u'.text.headlineLanguages
            ∧ lang ∉ u'.text.subheadlineLanguages
            ∧ u'.text.currentHeadlineLang ≠ lang
            ∧ u'.text.currentSubheadlineLang ≠ lang)
        ∧ (∀ (i : ℕ) (u : Screenshot), st.screenshots.get? i = some u →
            u.text.currentHeadlineLang = lang →
            ∃ u', (removeProjectLanguage lang st).screenshots.get? i = some u'
              ∧ u'.text.currentHeadlineLang
                  = (st.projectLanguages.erase lang).headD "")
        ∧ lang ∉ optKeys (removeProjectLanguage lang st).defaults.text.headlines
        ∧ lang ∉ optKeys (removeProjectLanguage lang st).defaults.text.subheadlines
        ∧ (removeProjectLanguage lang st).screenshots.map Screenshot.localizedImages
            = st.screenshots.map Screenshot.localizedImages) := by
  constructor
  · intro st lang hlen
    unfold removeProjectLanguage
    rw [if_pos hlen]
  · intro st lang hlen hmem hnodup hwfU hwfD
    have hnotle : ¬ st.projectLanguages.length ≤ 1 := by omega
    have herase_len : (st.projectLanguages.erase lang).length
        = st.projectLanguages.length - 1 := List.length_erase_of_mem hmem
    have herase_ne : st.projectLanguages.erase lang ≠ [] := by
      intro hc
      rw [hc] at herase_len
      simp at herase_len
      omega
    have hfirst_mem : (st.projectLanguages.erase lang).headD ""
        ∈ st.projectLanguages.erase lang := by
      cases he : st.projectLanguages.erase lang with
      | nil => exact absurd he herase_ne
      | cons f rest => simp
    have hfirst_ne : (st.projectLanguages.erase lang).headD "" ≠ lang :=
      ((List.Nodup.mem_erase_iff hnodup).mp hfirst_mem).1
    unfold removeProjectLanguage
    rw [if_neg hnotle, if_pos hmem]
    dsimp only
    by_cases hcur : st.currentLanguage = lang
    · rw [if_pos hcur]
      unfold switchGlobalLanguage
      dsimp only
      rw [List.map_map]
      refine ⟨erase_not_mem hnodup lang, fun _ => rfl, ?_, ?_,
        (purge_spec lang _ hwfD).1, (purge_spec lang _ hwfD).2.1, ?_⟩
      · intro u' hu'
        rw [List.mem_map] at hu'
        obtain ⟨u, hu, hu'eq⟩ := hu'
        subst hu'eq
        exact removeUnit_spec _ lang _ (switch_preserves_wf _ _ (hwfU u hu)) hfirst_ne
      · intro i u hui hshow
        refine ⟨_, (List.get?_map _ _ _).trans (by rw [hui]; rfl), ?_⟩
        dsimp only [Function.comp]
        rw [removeUnit_ch]
        simp [hfirst_ne]
      · rw [List.map_map]
        rfl
    · rw [if_neg hcur]
      refine ⟨erase_not_mem hnodup lang, fun hc => absurd hc hcur, ?_, ?_,
        (purge_spec lang _ hwfD).1, (purge_spec lang _ hwfD).2.1, ?_⟩
      · intro u' hu'
        rw [List.mem_map] at hu'
        obtain ⟨u, hu, hu'eq⟩ := hu'
        subst hu'eq
        exact removeUnit_spec _ lang _ (hwfU u hu) hfirst_ne
      · intro i u hui hshow
        refine ⟨_, (List.get?_map _ _ _).trans (by rw [hui]; rfl), ?_⟩
        dsimp only
        rw [removeUnit_ch]
        simp [hshow]
      · rw [List.map_map]
        rfl

/-- Witness for C4: removing `de` from `langState` drops it from the project
list, purges the unit's headline map and re-points the unit to `en`. -/
theorem c4_remove_language_witness :
    "de" ∉ (removeProjectLanguage "de" langState).projectLanguages
    ∧ (∀ u' ∈ (removeProjectLanguage "de" langState).screenshots,
        "de" ∉ optKeys u'.text.headlines
        ∧ "de" ∉ optKeys u'.text.subheadlines
        ∧ "de" ∉ u'.text.headlineLanguages
        ∧ "de" ∉ u'.text.subheadlineLanguages
        ∧ u'.text.currentHeadlineLang ≠ "de"
        ∧ u'.text.currentSubheadlineLang ≠ "de") :=
  ⟨(c4_remove_language.2 langState "de" (by decide) (by decide) (by decide)
      (by decide) (by decide)).1,
   (c4_remove_language.2 langState "de" (by decide) (by decide) (by decide)
      (by decide) (by decide)).2.2.1⟩

/-- Counterexample to C4 as stated: the removal succeeds (the language leaves
the project list and the text maps), yet the removed language's entry is still
present in the unit's `localizedImages` language map — the claim's "purges
that language's entries from every unit's language maps" fails for the
localized image map. -/
theorem c4_counterexample :
    "de" ∉ (removeProjectLanguage "de" langState).projectLanguages
    ∧ "de" ∈ (((removeProjectLanguage "de" langState).screenshots.headD langUnit).localizedImages.map
        Prod.fst) := by
  exact ⟨by decide, by decide⟩

/-- Assigning a key makes it the key's binding. -/
theorem lookup_setField (fs : List (String × JVal)) (k : String) (v : JVal) :
    (setField fs k v).lookup k = some v := by
  induction fs with
  | nil => simp [setField]
  | cons p rest ih =>
    by_cases hk : p.1 = k
    · simp [setField, hk]
    · cases p with
      | mk k' v' =>
        simp only at hk
        have hbeq : (k == k') = false := by
          simp only [beq_eq_false_iff_ne, ne_eq]
          exact fun hc => hk hc.symm
        simp only [setField, if_neg hk, List.lookup, hbeq]
        exact ih

/-- A walkable path can be assigned: the setter succeeds and the leaf reads
back as the assigned value. -/
theorem setPath_walkable (v : JVal) :
    ∀ (parts : List String) (o : JVal), walkable o parts →
      ∃ o', setPath o parts v = some o' ∧ getPath o' parts = some v := by
  intro parts
  induction parts with
  | nil =>
    intro o h
    cases o <;> simp [walkable] at h
  | cons k rest ih =>
    intro o h
    cases o with
    | str s => simp [walkable] at h
    | num q => simp [walkable] at h
    | jbool b => simp [walkable] at h
    | obj fs =>
      cases rest with
      | nil =>
        refine ⟨JVal.obj (setField fs k v), rfl, ?_⟩
        simp [getPath, lookup_setField]
      | cons k2 rest' =>
        obtain ⟨child, hlk, hw⟩ := h
        obtain ⟨c', hset, hget⟩ := ih child hw
        refine ⟨JVal.obj (setField fs k c'), ?_, ?_⟩
        · simp [setPath, hlk, hset]
        · simp [getPath, lookup_setField, hget]

/-- C5 (amended): with no active unit both setters silently no-op (and do not
throw); with an active unit, a dotted path whose intermediate objects all
exist is assigned through them so the leaf reads back as the new value — but
an absent intermediate makes the walk hit `undefined` and the setter throw
(`none`), rather than creating the missing object. -/
theorem c5_nested_setters :
    (∀ (key : String) (v : JVal) (st : DynState), st.screenshots = [] →
      setScreenshotSetting key v st = some st ∧ setBackground key v st = some st)
    ∧ (∀ (st : DynState) (u : DynUnit) (key : String) (v : JVal),
        getCurrentScreenshot st = some u → containsChar '.' key = true →
        walkable u.screenshot (jsSplit '.' key) →
        ∃ st', setScreenshotSetting key v st = some st'
          ∧ ∃ u', getCurrentScreenshot st' = some u'
            ∧ getPath u'.screenshot (jsSplit '.' key) = some v)
    ∧ (∀ (fs : List (String × JVal)) (k k2 : String) (rest : List String) (v : JVal),
        fs.lookup k = none →
        setPath (JVal.obj fs) (k :: k2 :: rest) v = none) := by
  refine ⟨?_, ?_, ?_⟩
  · intro key v st h
    constructor <;> simp [setScreenshotSetting, setBackground, getCurrentScreenshot, h]
  · intro st u key v hu hdot hw
    have hne : st.screenshots.length ≠ 0 := by
      intro hc
      simp [getCurrentScreenshot, hc] at hu
    have hget : st.screenshots.get? st.selectedIndex = some u := by
      simpa [getCurrentScreenshot, hne] using hu
    have hlt : st.selectedIndex < st.screenshots.length :=
      List.get?_eq_some.mp hget |>.1
    obtain ⟨o', hset, hread⟩ := setPath_walkable v (jsSplit '.' key) u.screenshot hw
    refine ⟨⟨st.screenshots.set st.selectedIndex ⟨u.background, o'⟩, st.selectedIndex⟩, ?_, ?_⟩
    · simp [setScreenshotSetting, hu, hdot, hset]
    · refine ⟨⟨u.background, o'⟩, ?_, hread⟩
      have hlen : (st.screenshots.set st.selectedIndex ⟨u.background, o'⟩).length ≠ 0 := by
        rw [List.length_set]
        exact hne
      simp only [getCurrentScreenshot, hlen, if_false, ite_false]
      rw [List.get?_set_eq_of_lt _ hlt]
  · intro fs k k2 rest v hlk
    simp [setPath, hlk]

/-- Witness for C5: without a unit the setter no-ops; with the `shadow`
object present, `shadow.blur` is assigned and reads back. -/
theorem c5_nested_setters_witness :
    setScreenshotSetting "shadow.blur" (JVal.num 5) dynNoUnitState = some dynNoUnitState
    ∧ (∃ st', setScreenshotSetting "shadow.blur" (JVal.num 5) dynShadowState = some st'
        ∧ ∃ u', getCurrentScreenshot st' = some u'
          ∧ getPath u'.screenshot (jsSplit '.' "shadow.blur") = some (JVal.num 5)) :=
  ⟨(c5_nested_setters.1 "shadow.blur" (JVal.num 5) dynNoUnitState rfl).1,
   c5_nested_setters.2.1 dynShadowState dynShadowUnit "shadow.blur" (JVal.num 5) rfl rfl
     ⟨JVal.obj [("blur", JVal.num 0)], rfl, trivial⟩⟩

/-- Counterexample to C5 as stated: with an active unit whose settings lack
the `shadow` intermediate object, `setScreenshotSetting("shadow.blur", 5)`
walks into `undefined` and throws (modelled `none`) instead of creating the
intermediate object; `setBackground` behaves the same. -/
theorem c5_counterexample :
    setScreenshotSetting "shadow.blur" (JVal.num 5) dynEmptyState = none
    ∧ setBackground "gradient.angle" (JVal.num 45) dynEmptyState = none :=
  ⟨rfl, rfl⟩

end AppScreen
